import Mathlib

/-!
Verification of the TTS reader core against its source.

Part 1 — Segmenter: shallow embedding of `splitTextIntoChunks` from
src/utils/textUtils.ts (lines 9–92).  Text is modelled as `List Char`
(`String.data`); JavaScript `String.prototype.trim` is modelled by `jsTrim`.
-/

namespace TTS

/-- Chunk record from src/types.ts: `{ id: number; text: string }`. -/
structure Chunk where
  id : Nat
  text : String
deriving DecidableEq, Repr

/-- Whitespace recognised by JavaScript `trim` (the code points relevant to
text files: space, tab, newline, carriage return, vertical tab, form feed,
no-break space). -/
def jsWhitespace (c : Char) : Bool :=
  c == ' ' || c == '\t' || c == '\n' || c == '\r' ||
  c == '\x0b' || c == '\x0c' || c == ' '

/-- JavaScript `buffer.trim()`: strip whitespace from both ends. -/
def jsTrim (s : List Char) : List Char :=
  ((s.dropWhile jsWhitespace).reverse.dropWhile jsWhitespace).reverse

/-- The delimiter test of textUtils.ts lines 19–34: `!`, `?`, `\n` always
delimit; `.` delimits only when neither the previous nor the next character
is a `.` (runs of dots are content). -/
def delimCond (prev : Option Char) (c : Char) (next : Option Char) : Bool :=
  if c == '!' || c == '?' || c == '\n' then true
  else if c == '.' then !(next == some '.') && !(prev == some '.')
  else false

/-- The character scan of textUtils.ts lines 15–45: accumulate into `buffer`;
on a delimiter, flush the trimmed buffer as a sentence when it has at least 3
trimmed characters.  Returns the flushed sentences and the final buffer. -/
def scanSentences (prev : Option Char) (buffer : List Char)
    (sentences : List (List Char)) : List Char → List (List Char) × List Char
  | [] => (sentences, buffer)
  | c :: rest =>
    let buffer' := buffer ++ [c]
    if delimCond prev c rest.head? ∧ 3 ≤ (jsTrim buffer').length then
      scanSentences (some c) [] (sentences ++ [jsTrim buffer']) rest
    else
      scanSentences (some c) buffer' sentences rest

/-- textUtils.ts lines 12–60: run the scan, then handle the leftover buffer
(append to the last sentence when shorter than 3 trimmed characters), then
the whole-text fallback when no sentence was produced. -/
def buildSentences (text : List Char) : List (List Char) :=
  let scanned := scanSentences none [] [] text
  let ss := scanned.1
  let tb := jsTrim scanned.2
  let ss1 :=
    if 0 < tb.length then
      if tb.length < 3 ∧ ss ≠ [] then
        ss.dropLast ++ [ss.getLastD [] ++ ' ' :: tb]
      else
        ss ++ [tb]
    else ss
  if ss1 = [] ∧ 0 < (jsTrim text).length then [jsTrim text] else ss1

/-- The grouping loop of textUtils.ts lines 62–89: join `sentencesPerChunk`
consecutive sentences with single spaces into one chunk; ids count up from
`chunkId`; a non-empty remainder becomes the final chunk. -/
def groupLoop (g : Nat) : List (List Char) → List Char → Nat → Nat → List Chunk
  | [], cur, _, cid => if 0 < cur.length then [⟨cid, cur.asString⟩] else []
  | s :: rest, cur, cnt, cid =>
    let cur' := if 0 < cur.length then cur ++ ' ' :: s else s
    if g ≤ cnt + 1 then
      ⟨cid, cur'.asString⟩ :: groupLoop g rest [] 0 (cid + 1)
    else
      groupLoop g rest cur' (cnt + 1) cid

/-- `splitTextIntoChunks` from src/utils/textUtils.ts lines 9–92.  Total by
construction (the source never throws); the empty string short-circuits to
the empty list as in line 10. -/
def splitTextIntoChunks (text : String) (sentencesPerChunk : Nat) : List Chunk :=
  if text = "" then [] else groupLoop sentencesPerChunk (buildSentences text.data) [] 0 0

/-- Space-join of a list of sentences, the shape the grouping loop builds. -/
def joinSpaceL : List (List Char) → List Char
  | [] => []
  | [s] => s
  | s :: rest => s ++ ' ' :: joinSpaceL rest

/-- Specification-shaped regrouping: chunks of `g` consecutive sentences
(the final one holding the remainder), ids counting up from `cid`. -/
def chunkSpec (g : Nat) : Nat → List (List Char) → List Chunk
  | _, [] => []
  | cid, s :: rest =>
    ⟨cid, (joinSpaceL (s :: rest.take (g - 1))).asString⟩ ::
      chunkSpec g (cid + 1) (rest.drop (g - 1))
termination_by _ l => l.length
decreasing_by simp [List.length_drop]; omega

/-- Scan state in which no character ever satisfies the delimiter test. -/
def noDelimScanB : Option Char → List Char → Bool
  | _, [] => true
  | prev, c :: rest => !(delimCond prev c rest.head?) && noDelimScanB (some c) rest

/-!
Part 2 — Playback controller.  Shallow embedding of the Reader component of
src/unnamed/part_003 (the variant with progress estimation and pagination)
as a state machine: the React component state plus the refs become one
record; each event handler, and each `useEffect` that its state updates
trigger, becomes a function on that record.  Calls to the progress
persistence callback `onSaveProgress` are recorded in `saveLog`.  The
backend speech synthesis and its `window.speechSynthesis` side effects live
outside the model; the callbacks the backend can invoke are modelled in
`speakWebSpeech` below.
-/

/-- `ReaderState` from src/types.ts. -/
inductive ReaderState where
  | IDLE
  | LOADING
  | PLAYING
  | PAUSED
deriving DecidableEq, Repr

/-- View mode of the reading surface (used by the Reader as
`settings.viewMode`). -/
inductive ViewMode where
  | continuous
  | paginated
deriving DecidableEq, Repr

/-- `ReaderSettings` as used by the Reader (src/types.ts plus the
`viewMode` field the component reads and writes). -/
structure ReaderSettings where
  playbackRate : ℚ
  volume : Nat
  webSpeechVoiceURI : String
  sentencesPerChunk : Nat
  viewMode : ViewMode
deriving DecidableEq, Repr

/-- The Reader component state of src/unnamed/part_003: React state
(`chunks`, `currentChunkIndex`, `readerState`, `chunkProgress`,
`errorMsg`, `currentPage`, `settings`), the refs (`progressInterval`
as `timerStep`, `isSettingUpdate`), and the log of `onSaveProgress`
calls made so far. -/
structure ReaderModel where
  chunks : List Chunk
  currentChunkIndex : Nat
  readerState : ReaderState
  chunkProgress : ℚ
  timerStep : Option ℚ
  errorMsg : Option String
  isSettingUpdate : Bool
  currentPage : Nat
  settings : ReaderSettings
  saveLog : List (Nat × ReaderSettings)
deriving DecidableEq, Repr

/-- `ITEMS_PER_PAGE` from src/unnamed/part_003 line 107. -/
def ITEMS_PER_PAGE : Nat := 50

/-- `totalPages = Math.ceil(chunks.length / ITEMS_PER_PAGE)`
(src/unnamed/part_003 line 112). -/
def totalPages (s : ReaderModel) : Nat :=
  (s.chunks.length + ITEMS_PER_PAGE - 1) / ITEMS_PER_PAGE

/-- A `setCurrentChunkIndex` commit together with the effects it triggers:
the pagination effect `setCurrentPage(Math.floor(index / ITEMS_PER_PAGE))`
(lines 114–116) and the save-progress-on-chunk-change effect (lines
331–336), which skips the save and clears the flag when `isSettingUpdate`
is set.  When the new value equals the current one React re-runs no effect
and the state is unchanged. -/
def commitIndex (s : ReaderModel) (i : Nat) : ReaderModel :=
  if i = s.currentChunkIndex then s
  else
    { s with
      currentChunkIndex := i
      currentPage := i / ITEMS_PER_PAGE
      isSettingUpdate := false
      saveLog := if s.isSettingUpdate then s.saveLog
                 else s.saveLog ++ [(i, s.settings)] }

/-- Estimated duration, src/unnamed/part_003 line 269:
`(textLength * 70) / playbackRate`. -/
def estimatedDurationMs (textLength : Nat) (rate : ℚ) : ℚ :=
  (textLength * 70) / rate

/-- The fixed simulation tick interval, line 270. -/
def updateIntervalMs : ℚ := 100

/-- Per-tick progress step, line 271:
`(updateInterval / estimatedDurationMs) * 100`. -/
def simStepOf (textLength : Nat) (rate : ℚ) : ℚ :=
  updateIntervalMs / estimatedDurationMs textLength rate * 100

/-- `playChunk` (src/unnamed/part_003 lines 253–318): bail out when the
index is out of range (a `Nat` index cannot be negative); otherwise cancel
the previous utterance when not an auto-advance continuation (backend side
effect, outside the model), clear any running progress interval and start a
new one with the step computed from the chunk text length and the playback
rate, clear the error, set state PLAYING and reset progress to 0. -/
def playChunk (s : ReaderModel) (index : Nat) (autoPlay : Bool) : ReaderModel :=
  if h : index < s.chunks.length then
    { s with
      timerStep := some (simStepOf (s.chunks.get ⟨index, h⟩).text.length
        s.settings.playbackRate)
      errorMsg := none
      readerState := .PLAYING
      chunkProgress := 0 }
  else s

/-- One simulation tick, lines 274–279: hold at 95 and never exceed it. -/
def tickFn (step p : ℚ) : ℚ :=
  if 95 ≤ p then p else min 95 (p + step)

/-- The interval callback firing: a no-op when no interval is running. -/
def handleTick (s : ReaderModel) : ReaderModel :=
  match s.timerStep with
  | none => s
  | some st => { s with chunkProgress := tickFn st s.chunkProgress }

/-- The first two statements of the `onEnd` callback, lines 287–289:
clear the interval and set progress to exactly 100. -/
def onEndMark (s : ReaderModel) : ReaderModel :=
  { s with timerStep := none, chunkProgress := 100 }

/-- The full `onEnd` callback, lines 286–299: after marking completion,
auto-advance to the next chunk (as a continuation, `autoPlay = true`) when
the finished chunk is not the last, else go IDLE. -/
def handleSpeechEnd (s : ReaderModel) : ReaderModel :=
  let s1 := onEndMark s
  if s.currentChunkIndex < s.chunks.length - 1 then
    let next := s.currentChunkIndex + 1
    playChunk (commitIndex s1 next) next true
  else
    { s1 with readerState := .IDLE }

/-- The `onError` callback, lines 300–307: clear the interval, surface the
error and go IDLE (progress is left as it was). -/
def handleSpeechError (s : ReaderModel) (kind : String) : ReaderModel :=
  { s with
    timerStep := none
    errorMsg := some kind
    readerState := .IDLE }

/-- `handleStop`, lines 350–355: cancel speech (backend side effect), clear
the interval, go IDLE and reset the displayed progress. -/
def handleStopM (s : ReaderModel) : ReaderModel :=
  { s with
    timerStep := none
    readerState := .IDLE
    chunkProgress := 0 }

/-- `handlePlayPause`, lines 338–348. -/
def handlePlayPause (s : ReaderModel) : ReaderModel :=
  match s.readerState with
  | .PLAYING => { s with readerState := .PAUSED }
  | .PAUSED => { s with readerState := .PLAYING }
  | _ => playChunk s s.currentChunkIndex false

/-- `handleNavigate`, lines 357–365: stop, clamp `index + offset` into
`[0, count-1]`, commit the new index, play it. -/
def handleNavigate (s : ReaderModel) (offset : Int) : ReaderModel :=
  let s1 := handleStopM s
  let next : Nat :=
    (max 0 (min ((s.chunks.length : Int) - 1)
      ((s.currentChunkIndex : Int) + offset))).toNat
  playChunk (commitIndex s1 next) next false

/-- `handleJump`, lines 367–375, with the parsed one-based target (a parse
failure takes the no-op branch): valid only for `1 ≤ target ≤ count`. -/
def handleJump (s : ReaderModel) (target : Int) : ReaderModel :=
  if 0 < target ∧ target ≤ (s.chunks.length : Int) then
    playChunk (commitIndex (handleStopM s) (target.toNat - 1)) (target.toNat - 1) false
  else s

/-- `changeChunkSize`, lines 377–393: clamp `oldSize + delta` into
`[1, 200]`; no-op when unchanged; otherwise store the new size and commit
the remapped index `floor(currentIndex * oldSize / newSize)`.  (The
re-segmentation that a `sentencesPerChunk` change additionally triggers is
the effect of lines 173–182, outside this handler.) -/
def changeChunkSize (s : ReaderModel) (delta : Int) : ReaderModel :=
  let oldSize := s.settings.sentencesPerChunk
  let newSize : Nat := (max 1 (min 200 ((oldSize : Int) + delta))).toNat
  if newSize = oldSize then s
  else
    commitIndex
      { s with settings := { s.settings with sentencesPerChunk := newSize } }
      (s.currentChunkIndex * oldSize / newSize)

/-- A settings update touching `playbackRate` / `volume` /
`webSpeechVoiceURI`, followed by the effect of lines 321–328: when one of
those three dependencies changed, restart the current chunk while PLAYING
(setting the `isSettingUpdate` flag first) and save progress once. -/
def applyAVSettings (s : ReaderModel) (ns : ReaderSettings) : ReaderModel :=
  let s0 := { s with settings := ns }
  if ns.playbackRate = s.settings.playbackRate ∧ ns.volume = s.settings.volume
      ∧ ns.webSpeechVoiceURI = s.settings.webSpeechVoiceURI then s0
  else
    let s1 := if s0.readerState = .PLAYING then
        playChunk { s0 with isSettingUpdate := true } s0.currentChunkIndex false
      else s0
    { s1 with saveLog := s1.saveLog ++ [(s1.currentChunkIndex, ns)] }

/-- `handlePageChange`, lines 118–122: manual page navigation, valid only
inside `[0, totalPages)`. -/
def handlePageChange (s : ReaderModel) (newPage : Int) : ReaderModel :=
  if 0 ≤ newPage ∧ newPage < (totalPages s : Int) then
    { s with currentPage := newPage.toNat }
  else s

/-- Backend outcomes a speech request can report. -/
inductive BackendOutcome where
  | ended
  | error (kind : String)
deriving DecidableEq, Repr

/-- `speakWebSpeech` from src/services/webSpeechService.ts lines 5–52: the
function declares SEVEN parameters, the last being `shouldCancel`.  Its
observable behaviour toward the caller is which callback it invokes for a
given backend outcome: `onEnd` on completion, `onError` on an error whose
kind is not "canceled" or "interrupted" (those are swallowed, lines
40–46). -/
def speakWebSpeech {α : Type} (text voiceURI : String) (rate : ℚ) (volume : Nat)
    (onEnd : α → α) (onError : String → α → α) (shouldCancel : Bool) :
    BackendOutcome → α → α
  | .ended, s => onEnd s
  | .error k, s => if k = "canceled" ∨ k = "interrupted" then s else onError k s

/-- The call made by `playChunk` (src/unnamed/part_003 lines 281–315) passes
an EIGHTH argument, the real-progress callback; JavaScript drops arguments
beyond a function's declared parameters, so the eighth argument never
reaches `speakWebSpeech`. -/
def speakCallWithProgressArg {α : Type} (text voiceURI : String) (rate : ℚ)
    (volume : Nat) (onEnd : α → α) (onError : String → α → α)
    (shouldCancel : Bool) (onProgress : ℚ → α → α) : BackendOutcome → α → α :=
  speakWebSpeech text voiceURI rate volume onEnd onError shouldCancel

/-- Events that can reach the in-flight chunk: a 100 ms simulation tick or
a backend outcome. -/
inductive FlightEvent where
  | tick
  | outcome (o : BackendOutcome)
deriving DecidableEq, Repr

/-- One step of the in-flight chunk: a timer tick, or a backend outcome
dispatched through the `speakWebSpeech` call made by `playChunk` — with the
arguments of that call site, including the dropped eighth argument
`(percentage) => setChunkProgress(percentage)`. -/
def flightStep (s : ReaderModel) : FlightEvent → ReaderModel
  | .tick => handleTick s
  | .outcome o =>
      speakCallWithProgressArg
        (s.chunks.getD s.currentChunkIndex ⟨0, ""⟩).text
        s.settings.webSpeechVoiceURI s.settings.playbackRate s.settings.volume
        handleSpeechEnd (fun k t => handleSpeechError t k) true
        (fun pct t => { t with chunkProgress := pct }) o s

/-- Run a sequence of flight events. -/
def runFlight (s : ReaderModel) (evs : List FlightEvent) : ReaderModel :=
  evs.foldl flightStep s

/-- `DEFAULT_SETTINGS` of src/unnamed/part_000 lines 10–16. -/
def defaultSettings : ReaderSettings :=
  { playbackRate := 1
    volume := 100
    webSpeechVoiceURI := ""
    sentencesPerChunk := 50
    viewMode := .continuous }

/-- A reachable state: two chunks, the first playing, nothing saved yet. -/
def cexPlayingState : ReaderModel :=
  { chunks := [⟨0, "One one."⟩, ⟨1, "Two two."⟩]
    currentChunkIndex := 0
    readerState := .PLAYING
    chunkProgress := 0
    timerStep := some (simStepOf 8 1)
    errorMsg := none
    isSettingUpdate := false
    currentPage := 0
    settings := defaultSettings
    saveLog := [] }

/-- The settings of `cexPlayingState` with the playback rate doubled. -/
def fasterSettings : ReaderSettings :=
  { defaultSettings with playbackRate := 2 }

/-- The quiescent state of an empty document: no chunks, index 0, IDLE. -/
def emptyIdleState : ReaderModel :=
  { chunks := []
    currentChunkIndex := 0
    readerState := .IDLE
    chunkProgress := 0
    timerStep := none
    errorMsg := none
    isSettingUpdate := false
    currentPage := 0
    settings := defaultSettings
    saveLog := [] }

/-- A reachable state: 51 chunks, chunk 49 (page 0) playing. -/
def pageBoundaryState : ReaderModel :=
  { chunks := (List.range 51).map fun i => ⟨i, "Some chunk text."⟩
    currentChunkIndex := 49
    readerState := .PLAYING
    chunkProgress := 0
    timerStep := some (simStepOf 16 1)
    errorMsg := none
    isSettingUpdate := false
    currentPage := 0
    settings := defaultSettings
    saveLog := [] }

lemma joinSpaceL_cons_ne_nil (x : List Char) (l : List (List Char)) (hx : x ≠ []) :
    joinSpaceL (x :: l) ≠ [] := by
  cases l with
  | nil => simpa [joinSpaceL] using hx
  | cons y ys => simp [joinSpaceL]

lemma joinSpaceL_append_singleton (s : List Char) :
    ∀ (pre : List (List Char)), pre ≠ [] →
      joinSpaceL (pre ++ [s]) = joinSpaceL pre ++ ' ' :: s := by
  intro pre
  induction pre with
  | nil => intro h; exact absurd rfl h
  | cons x xs ih =>
    intro _
    cases xs with
    | nil => simp [joinSpaceL]
    | cons y ys =>
      calc joinSpaceL (x :: y :: ys ++ [s])
          = x ++ ' ' :: joinSpaceL ((y :: ys) ++ [s]) := by simp [joinSpaceL]
        _ = x ++ ' ' :: (joinSpaceL (y :: ys) ++ ' ' :: s) := by rw [ih (by simp)]
        _ = joinSpaceL (x :: y :: ys) ++ ' ' :: s := by simp [joinSpaceL]

lemma asString_ne_empty (l : List Char) (h : l ≠ []) : l.asString ≠ "" := by
  intro he
  apply h
  have : (l.asString).data = ("" : String).data := by rw [he]
  simpa [List.asString] using this

lemma scanSentences_min3 :
    ∀ (l : List Char) (prev : Option Char) (buffer : List Char)
      (sentences : List (List Char)),
      (∀ x ∈ sentences, 3 ≤ x.length) →
      ∀ x ∈ (scanSentences prev buffer sentences l).1, 3 ≤ x.length := by
  intro l
  induction l with
  | nil =>
    intro prev buffer ss h x hx
    simpa [scanSentences] using h x (by simpa [scanSentences] using hx)
  | cons c rest ih =>
    intro prev buffer ss h x hx
    simp only [scanSentences] at hx
    split at hx
    · next hcond =>
      refine ih _ _ _ ?_ x hx
      intro y hy
      rcases List.mem_append.mp hy with h1 | h1
      · exact h y h1
      · simp only [List.mem_singleton] at h1
        subst h1
        exact hcond.2
    · exact ih _ _ _ h x hx

lemma buildSentences_ne_nil (text : List Char) :
    ∀ x ∈ buildSentences text, x ≠ [] := by
  have hmin : ∀ y ∈ (scanSentences none [] [] text).1, 3 ≤ y.length :=
    scanSentences_min3 text none [] [] (by intro y hy; simp at hy)
  have hss : ∀ y ∈ (scanSentences none [] [] text).1, y ≠ [] := by
    intro y hy he
    have h3 := hmin y hy
    subst he; simp at h3
  intro x hx
  simp only [buildSentences] at hx
  set ss := (scanSentences none [] [] text).1 with hssdef
  set tb := jsTrim (scanSentences none [] [] text).2 with htbdef
  by_cases hpos : 0 < tb.length
  · simp only [if_pos hpos] at hx
    by_cases hshort : tb.length < 3 ∧ ss ≠ []
    · simp only [if_pos hshort] at hx
      rw [if_neg (by simp)] at hx
      rcases List.mem_append.mp hx with h1 | h1
      · exact hss x (List.dropLast_subset _ h1)
      · simp only [List.mem_singleton] at h1
        subst h1
        simp
    · simp only [if_neg hshort] at hx
      rw [if_neg (by simp [List.length_pos.mp hpos])] at hx
      rcases List.mem_append.mp hx with h1 | h1
      · exact hss x h1
      · simp only [List.mem_singleton] at h1
        subst h1
        exact List.length_pos.mp hpos
  · simp only [if_neg hpos] at hx
    by_cases hfb : ss = [] ∧ 0 < (jsTrim text).length
    · rw [if_pos hfb] at hx
      simp only [List.mem_singleton] at hx
      subst hx
      exact List.length_pos.mp hfb.2
    · rw [if_neg hfb] at hx
      exact hss x hx

lemma groupLoop_spec (g : Nat) (hg : 1 ≤ g) :
    ∀ (n : Nat) (ss : List (List Char)), ss.length ≤ n →
      (∀ x ∈ ss, x ≠ []) →
      (∀ cid, groupLoop g ss [] 0 cid = chunkSpec g cid ss) ∧
      (∀ (pre : List (List Char)) (cid : Nat), pre ≠ [] →
        (∀ x ∈ pre, x ≠ []) → pre.length < g →
        groupLoop g ss (joinSpaceL pre) pre.length cid =
          ⟨cid, (joinSpaceL (pre ++ ss.take (g - pre.length))).asString⟩ ::
            chunkSpec g (cid + 1) (ss.drop (g - pre.length))) := by
  intro n
  induction n with
  | zero =>
    intro ss hlen hne
    have hss : ss = [] := List.length_eq_zero.mp (Nat.le_zero.mp hlen)
    subst hss
    constructor
    · intro cid; simp [groupLoop, chunkSpec]
    · intro pre cid hpre hprene hlt
      obtain ⟨p, ps, rfl⟩ : ∃ p ps, pre = p :: ps := by
        cases pre with
        | nil => exact absurd rfl hpre
        | cons p ps => exact ⟨p, ps, rfl⟩
      have hjoin : joinSpaceL (p :: ps) ≠ [] :=
        joinSpaceL_cons_ne_nil p ps (hprene p (by simp))
      simp [groupLoop, chunkSpec, List.length_pos.mpr hjoin]
  | succ n ih =>
    intro ss hlen hne
    cases ss with
    | nil =>
      constructor
      · intro cid; simp [groupLoop, chunkSpec]
      · intro pre cid hpre hprene hlt
        obtain ⟨p, ps, rfl⟩ : ∃ p ps, pre = p :: ps := by
          cases pre with
          | nil => exact absurd rfl hpre
          | cons p ps => exact ⟨p, ps, rfl⟩
        have hjoin : joinSpaceL (p :: ps) ≠ [] :=
          joinSpaceL_cons_ne_nil p ps (hprene p (by simp))
        simp [groupLoop, chunkSpec, List.length_pos.mpr hjoin]
    | cons s rest =>
      have hrest : rest.length ≤ n := by
        simp only [List.length_cons] at hlen; omega
      have hneRest : ∀ x ∈ rest, x ≠ [] := fun x hx => hne x (by simp [hx])
      have hs : s ≠ [] := hne s (by simp)
      have ihm := (ih rest hrest hneRest).1
      have iha := (ih rest hrest hneRest).2
      constructor
      · intro cid
        by_cases hcase : g ≤ 1
        · have hg1 : g = 1 := Nat.le_antisymm hcase hg
          subst hg1
          simp only [groupLoop, List.length_nil, Nat.lt_irrefl, if_false, Nat.zero_add,
            Nat.le_refl, if_true, chunkSpec]
          rw [ihm (cid + 1)]
          simp [joinSpaceL]
        · have h1g : 1 < g := Nat.lt_of_not_le hcase
          have step : groupLoop g (s :: rest) [] 0 cid = groupLoop g rest s 1 cid := by
            simp [groupLoop, Nat.not_le.mpr h1g]
          rw [step]
          have := iha [s] cid (by simp) (by simpa using hs) (by simpa using h1g)
          simp only [joinSpaceL, List.length_cons, List.length_nil, Nat.zero_add] at this
          rw [this]
          simp [chunkSpec, List.cons_append]
      · intro pre cid hpre hprene hlt
        have hjoin : joinSpaceL pre ≠ [] := by
          obtain ⟨p, ps, rfl⟩ : ∃ p ps, pre = p :: ps := by
            cases pre with
            | nil => exact absurd rfl hpre
            | cons p ps => exact ⟨p, ps, rfl⟩
          exact joinSpaceL_cons_ne_nil p ps (hprene p (by simp))
        have hcur : joinSpaceL pre ++ ' ' :: s = joinSpaceL (pre ++ [s]) :=
          (joinSpaceL_append_singleton s pre hpre).symm
        by_cases hcase : g ≤ pre.length + 1
        · have hgedge : g = pre.length + 1 := Nat.le_antisymm hcase hlt
          have step : groupLoop g (s :: rest) (joinSpaceL pre) pre.length cid =
              ⟨cid, (joinSpaceL (pre ++ [s])).asString⟩ ::
                groupLoop g rest [] 0 (cid + 1) := by
            simp [groupLoop, List.length_pos.mpr hjoin, hcase, hcur]
          rw [step, ihm (cid + 1)]
          have hone : g - pre.length = 1 := by omega
          simp [hone]
        · have hby : pre.length + 1 < g := Nat.lt_of_not_le hcase
          have step : groupLoop g (s :: rest) (joinSpaceL pre) pre.length cid =
              groupLoop g rest (joinSpaceL (pre ++ [s])) (pre ++ [s]).length cid := by
            simp [groupLoop, List.length_pos.mpr hjoin, hcase, hcur]
          rw [step]
          have := iha (pre ++ [s]) cid (by simp)
            (by intro x hx; rcases List.mem_append.mp hx with h1 | h1
                · exact hprene x h1
                · simp only [List.mem_singleton] at h1; subst h1; exact hs)
            (by simpa using hby)
          rw [this]
          have htk : g - pre.length = (g - (pre.length + 1)) + 1 := by omega
          simp only [List.length_append, List.length_cons, List.length_nil, Nat.zero_add]
          rw [htk, List.take_succ_cons, List.drop_succ_cons]
          simp [List.append_assoc]

lemma chunkSpec_getElem? (g : Nat) (hg : 1 ≤ g) :
    ∀ (n : Nat) (ss : List (List Char)), ss.length ≤ n → ∀ (cid i : Nat),
      (chunkSpec g cid ss)[i]? =
        if (ss.drop (i * g)) = [] then none
        else some ⟨cid + i, (joinSpaceL ((ss.drop (i * g)).take g)).asString⟩ := by
  intro n
  induction n with
  | zero =>
    intro ss hlen cid i
    have hss : ss = [] := List.length_eq_zero.mp (Nat.le_zero.mp hlen)
    subst hss
    simp [chunkSpec]
  | succ n ih =>
    intro ss hlen cid i
    cases ss with
    | nil => simp [chunkSpec]
    | cons s rest =>
      have hrest : (rest.drop (g - 1)).length ≤ n := by
        simp only [List.length_drop]
        simp only [List.length_cons] at hlen
        omega
      rw [chunkSpec]
      cases i with
      | zero =>
        have htake : (s :: rest).take g = s :: rest.take (g - 1) := by
          conv_lhs => rw [show g = (g - 1) + 1 from by omega]
          rw [List.take_succ_cons]
        simp [htake]
      | succ i =>
        rw [List.getElem?_cons_succ, ih (rest.drop (g - 1)) hrest (cid + 1) i]
        have hidx : (i + 1) * g = (i * g + (g - 1)) + 1 := by
          rw [Nat.succ_mul]; omega
        have hdrop : (s :: rest).drop ((i + 1) * g) = (rest.drop (g - 1)).drop (i * g) := by
          rw [hidx, List.drop_succ_cons, List.drop_drop]
          congr 1
          omega
        rw [hdrop]
        have hcid : cid + 1 + i = cid + (i + 1) := by omega
        rw [hcid]

lemma chunkSpec_length (g : Nat) (hg : 1 ≤ g) :
    ∀ (n : Nat) (ss : List (List Char)), ss.length ≤ n → ∀ cid,
      (chunkSpec g cid ss).length = (ss.length + g - 1) / g := by
  intro n
  induction n with
  | zero =>
    intro ss hlen cid
    have hss : ss = [] := List.length_eq_zero.mp (Nat.le_zero.mp hlen)
    subst hss
    simp [chunkSpec, Nat.div_eq_of_lt (by omega : g - 1 < g)]
  | succ n ih =>
    intro ss hlen cid
    cases ss with
    | nil => simp [chunkSpec, Nat.div_eq_of_lt (by omega : g - 1 < g)]
    | cons s rest =>
      have hrest : (rest.drop (g - 1)).length ≤ n := by
        simp only [List.length_drop]
        simp only [List.length_cons] at hlen
        omega
      rw [chunkSpec]
      simp only [List.length_cons, ih (rest.drop (g - 1)) hrest (cid + 1), List.length_drop]
      have hg0 : 0 < g := hg
      have hgoal : rest.length + 1 + g - 1 = rest.length + g := by omega
      rw [hgoal, Nat.add_div_right _ hg0]
      rcases le_or_lt (g - 1) rest.length with hle | hlt
      · have : rest.length - (g - 1) + g - 1 = rest.length := by omega
        rw [this]
      · have h1 : rest.length - (g - 1) = 0 := by omega
        rw [h1]
        rw [Nat.div_eq_of_lt (by omega : 0 + g - 1 < g),
          Nat.div_eq_of_lt (by omega : rest.length < g)]

lemma chunkSpec_map_id (g : Nat) :
    ∀ (n : Nat) (ss : List (List Char)), ss.length ≤ n → ∀ cid,
      (chunkSpec g cid ss).map Chunk.id =
        List.range' cid (chunkSpec g cid ss).length := by
  intro n
  induction n with
  | zero =>
    intro ss hlen cid
    have hss : ss = [] := List.length_eq_zero.mp (Nat.le_zero.mp hlen)
    subst hss
    simp [chunkSpec]
  | succ n ih =>
    intro ss hlen cid
    cases ss with
    | nil => simp [chunkSpec]
    | cons s rest =>
      have hrest : (rest.drop (g - 1)).length ≤ n := by
        simp only [List.length_drop]
        simp only [List.length_cons] at hlen
        omega
      rw [chunkSpec]
      simp only [List.map_cons, List.length_cons, List.range'_succ]
      rw [ih (rest.drop (g - 1)) hrest (cid + 1)]

lemma chunkSpec_text_ne (g : Nat) :
    ∀ (n : Nat) (ss : List (List Char)), ss.length ≤ n →
      (∀ x ∈ ss, x ≠ []) → ∀ cid, ∀ c ∈ chunkSpec g cid ss, c.text ≠ "" := by
  intro n
  induction n with
  | zero =>
    intro ss hlen _ cid c hc
    have hss : ss = [] := List.length_eq_zero.mp (Nat.le_zero.mp hlen)
    subst hss
    simp [chunkSpec] at hc
  | succ n ih =>
    intro ss hlen hne cid c hc
    cases ss with
    | nil => simp [chunkSpec] at hc
    | cons s rest =>
      have hrest : (rest.drop (g - 1)).length ≤ n := by
        simp only [List.length_drop]
        simp only [List.length_cons] at hlen
        omega
      rw [chunkSpec] at hc
      rcases List.mem_cons.mp hc with h1 | h1
      · subst h1
        exact asString_ne_empty _
          (joinSpaceL_cons_ne_nil s _ (hne s (by simp)))
      · exact ih (rest.drop (g - 1)) hrest
          (fun x hx => hne x (by simp [List.drop_subset _ _ hx]))
          (cid + 1) c h1

lemma split_eq_chunkSpec (text : String) (g : Nat) (hg : 1 ≤ g) :
    splitTextIntoChunks text g = chunkSpec g 0 (buildSentences text.data) := by
  unfold splitTextIntoChunks
  split
  · next he =>
    subst he
    have hb : buildSentences ("" : String).data = [] := rfl
    rw [hb, chunkSpec]
  · exact (groupLoop_spec g hg (buildSentences text.data).length _ le_rfl
      (buildSentences_ne_nil _)).1 0

lemma scan_noDelim :
    ∀ (l : List Char) (prev : Option Char) (buffer : List Char)
      (sentences : List (List Char)),
      noDelimScanB prev l = true →
      scanSentences prev buffer sentences l = (sentences, buffer ++ l) := by
  intro l
  induction l with
  | nil => intro prev buffer ss _; simp [scanSentences]
  | cons c rest ih =>
    intro prev buffer ss h
    simp only [noDelimScanB, Bool.and_eq_true, Bool.not_eq_true'] at h
    simp only [scanSentences]
    rw [if_neg (by simp [h.1])]
    rw [ih _ _ _ h.2]
    simp

lemma buildSentences_noDelim (text : List Char) (h : noDelimScanB none text = true) :
    buildSentences text = if jsTrim text = [] then [] else [jsTrim text] := by
  by_cases htb : jsTrim text = []
  · simp [buildSentences, scan_noDelim text none [] [] h, htb]
  · simp [buildSentences, scan_noDelim text none [] [] h, htb,
      List.length_pos.mpr htb]

lemma split_noDelim (text : String) (g : Nat) (h : noDelimScanB none text.data = true) :
    splitTextIntoChunks text g =
      if jsTrim text.data = [] then [] else [⟨0, (jsTrim text.data).asString⟩] := by
  unfold splitTextIntoChunks
  by_cases he : text = ""
  · subst he
    simp [jsTrim]
  · rw [if_neg he, buildSentences_noDelim _ h]
    by_cases htb : jsTrim text.data = []
    · simp [htb, groupLoop]
    · rw [if_neg htb, if_neg htb]
      by_cases hg : g ≤ 1
      · simp [groupLoop, hg]
      · simp [groupLoop, hg, List.length_pos.mpr htb]

/-- C1: For the input `"Hi. OK. Go now! Next.\n"` with groupSize 2 the
segmenter returns exactly the chunks `{0, "Hi. OK."}` and
`{1, "Go now! Next."}`.  In general, for every text and every groupSize
`g ≥ 1`, the segmenter produces `⌈sentences / g⌉` chunks and chunk `i` is the
space-join of the `g` consecutive sentences starting at sentence `i·g` — so
every chunk but the last holds exactly `g` sentences and the final chunk
holds the remainder of `1..g` sentences. -/
theorem C1_grouping :
    splitTextIntoChunks "Hi. OK. Go now! Next.\n" 2 =
      [⟨0, "Hi. OK."⟩, ⟨1, "Go now! Next."⟩]
    ∧ ∀ (text : String) (g : Nat), 1 ≤ g →
        (splitTextIntoChunks text g).length =
          ((buildSentences text.data).length + g - 1) / g
        ∧ ∀ i : Nat, (splitTextIntoChunks text g)[i]? =
            if (buildSentences text.data).drop (i * g) = [] then none
            else some ⟨i,
              (joinSpaceL (((buildSentences text.data).drop (i * g)).take g)).asString⟩ := by
  refine ⟨by decide, ?_⟩
  intro text g hg
  rw [split_eq_chunkSpec text g hg]
  refine ⟨chunkSpec_length g hg _ _ le_rfl 0, fun i => ?_⟩
  simpa using chunkSpec_getElem? g hg _ _ le_rfl 0 i

theorem C1_grouping_witness :
    (1 : Nat) ≤ 2 ∧
    (splitTextIntoChunks "Hi. OK. Go now! Next.\n" 2).length =
      ((buildSentences ("Hi. OK. Go now! Next.\n" : String).data).length + 2 - 1) / 2 :=
  ⟨by decide, (C1_grouping.2 "Hi. OK. Go now! Next.\n" 2 (by decide)).1⟩

/-- C2: For every input text and every groupSize ≥ 1 the produced chunk ids
are exactly `0..N-1` in order (contiguous, zero-based) and every chunk text
is a non-empty string. -/
theorem C2_ids_contiguous_nonempty :
    ∀ (text : String) (g : Nat), 1 ≤ g →
      (splitTextIntoChunks text g).map Chunk.id =
        List.range (splitTextIntoChunks text g).length
      ∧ ∀ c ∈ splitTextIntoChunks text g, c.text ≠ "" := by
  intro text g hg
  rw [split_eq_chunkSpec text g hg]
  refine ⟨?_, ?_⟩
  · rw [List.range_eq_range']
    exact chunkSpec_map_id g _ _ le_rfl 0
  · exact chunkSpec_text_ne g _ _ le_rfl (buildSentences_ne_nil _) 0

theorem C2_witness :
    (splitTextIntoChunks "Hi. OK. Go now! Next.\n" 2).map Chunk.id =
      List.range (splitTextIntoChunks "Hi. OK. Go now! Next.\n" 2).length :=
  (C2_ids_contiguous_nonempty "Hi. OK. Go now! Next.\n" 2 (by decide)).1

/-- C3 counterexample: the single space `" "` is a non-empty text with zero
delimiter characters, yet the segmenter produces zero chunks, not one; and
for `" a "` the single produced chunk holds the trimmed text `"a"`, not the
whole text `" a "`. -/
theorem C3_counterexample :
    (" " : String) ≠ "" ∧ noDelimScanB none (" " : String).data = true ∧
    splitTextIntoChunks " " 1 = [] ∧
    (" a " : String) ≠ "" ∧ noDelimScanB none (" a " : String).data = true ∧
    splitTextIntoChunks " a " 1 = [⟨0, "a"⟩] ∧ ("a" : String) ≠ " a " := by
  decide

/-- C3 amended: the segmenter is total (a total Lean function by
construction); the empty string yields the empty sequence; and for every
text with zero delimiter characters the result is empty when the trimmed
text is empty, and otherwise is exactly one chunk holding the trimmed
text. -/
theorem C3_amended :
    (∀ g : Nat, splitTextIntoChunks "" g = []) ∧
    ∀ (text : String) (g : Nat), noDelimScanB none text.data = true →
      splitTextIntoChunks text g =
        if jsTrim text.data = [] then [] else [⟨0, (jsTrim text.data).asString⟩] :=
  ⟨fun g => by simp [splitTextIntoChunks], fun text g h => split_noDelim text g h⟩

theorem C3_amended_witness :
    noDelimScanB none ("abc" : String).data = true ∧
    splitTextIntoChunks "abc" 3 =
      (if jsTrim ("abc" : String).data = [] then []
       else [⟨0, (jsTrim ("abc" : String).data).asString⟩]) :=
  ⟨by decide, C3_amended.2 "abc" 3 (by decide)⟩

/-- C4: a dot adjacent to another dot never satisfies the delimiter test,
and the input `"Wait... really?"` with groupSize 1 yields exactly one chunk
whose text is `"Wait... really?"` — the ellipsis does not split. -/
theorem C4_ellipsis :
    splitTextIntoChunks "Wait... really?" 1 = [⟨0, "Wait... really?"⟩]
    ∧ ∀ (prev next : Option Char), (prev = some '.' ∨ next = some '.') →
        delimCond prev '.' next = false := by
  refine ⟨by decide, ?_⟩
  intro prev next h
  rcases h with h | h <;> subst h <;> simp [delimCond]

theorem C4_witness :
    ((some '.' : Option Char) = some '.' ∨ (none : Option Char) = some '.') ∧
    delimCond (some '.') '.' none = false :=
  ⟨Or.inl rfl, C4_ellipsis.2 (some '.') none (Or.inl rfl)⟩

example : splitTextIntoChunks "Hi. OK. Go now! Next.\n" 2 =
    [⟨0, "Hi. OK."⟩, ⟨1, "Go now! Next."⟩] := by decide

example : splitTextIntoChunks "Wait... really?" 1 = [⟨0, "Wait... really?"⟩] := by decide

example : splitTextIntoChunks " " 1 = [] := by decide

example : splitTextIntoChunks " a " 1 = [⟨0, "a"⟩] := by decide

example : noDelimScanB none (" a ".data) = true := by decide

lemma commitIndex_chunks (s : ReaderModel) (i : Nat) :
    (commitIndex s i).chunks = s.chunks := by
  unfold commitIndex; split <;> rfl

lemma commitIndex_currentChunkIndex (s : ReaderModel) (i : Nat) :
    (commitIndex s i).currentChunkIndex = i := by
  unfold commitIndex
  split
  · next h => exact h.symm
  · rfl

lemma commitIndex_settings (s : ReaderModel) (i : Nat) :
    (commitIndex s i).settings = s.settings := by
  unfold commitIndex; split <;> rfl

lemma commitIndex_readerState (s : ReaderModel) (i : Nat) :
    (commitIndex s i).readerState = s.readerState := by
  unfold commitIndex; split <;> rfl

lemma commitIndex_chunkProgress (s : ReaderModel) (i : Nat) :
    (commitIndex s i).chunkProgress = s.chunkProgress := by
  unfold commitIndex; split <;> rfl

lemma commitIndex_timerStep (s : ReaderModel) (i : Nat) :
    (commitIndex s i).timerStep = s.timerStep := by
  unfold commitIndex; split <;> rfl

lemma playChunk_pos (s : ReaderModel) (i : Nat) (a : Bool)
    (h : i < s.chunks.length) :
    playChunk s i a =
      { s with
        timerStep := some (simStepOf (s.chunks.get ⟨i, h⟩).text.length
          s.settings.playbackRate)
        errorMsg := none
        readerState := .PLAYING
        chunkProgress := 0 } := by
  unfold playChunk; rw [dif_pos h]

lemma playChunk_neg (s : ReaderModel) (i : Nat) (a : Bool)
    (h : ¬ i < s.chunks.length) :
    playChunk s i a = s := by
  unfold playChunk; rw [dif_neg h]

lemma playChunk_saveLog (s : ReaderModel) (i : Nat) (a : Bool) :
    (playChunk s i a).saveLog = s.saveLog := by
  unfold playChunk; split <;> rfl

lemma playChunk_currentChunkIndex (s : ReaderModel) (i : Nat) (a : Bool) :
    (playChunk s i a).currentChunkIndex = s.currentChunkIndex := by
  unfold playChunk; split <;> rfl

lemma playChunk_isSettingUpdate (s : ReaderModel) (i : Nat) (a : Bool) :
    (playChunk s i a).isSettingUpdate = s.isSettingUpdate := by
  unfold playChunk; split <;> rfl

/-- C5: with at least one chunk, `navigate(d)` first stops, then sets the
current index to `clamp(index + d, 0, count - 1)` and plays the chunk
there: afterwards the state is PLAYING with the progress freshly reset and
a progress interval running.  With zero chunks, play, navigate and jump
are exact no-ops on the quiescent empty state (IDLE, index 0). -/
theorem C5_navigate_clamp_and_empty_noop :
    (∀ (s : ReaderModel) (d : Int), 1 ≤ s.chunks.length →
      (handleNavigate s d).currentChunkIndex =
        (max 0 (min ((s.chunks.length : Int) - 1)
          ((s.currentChunkIndex : Int) + d))).toNat
      ∧ (handleNavigate s d).readerState = .PLAYING
      ∧ (handleNavigate s d).chunkProgress = 0
      ∧ (handleNavigate s d).timerStep ≠ none)
    ∧ (∀ (s : ReaderModel) (d t : Int), s.chunks = [] → s.currentChunkIndex = 0 →
        s.readerState = .IDLE → s.chunkProgress = 0 → s.timerStep = none →
        handlePlayPause s = s ∧ handleNavigate s d = s ∧ handleJump s t = s) := by
  constructor
  · intro s d hN
    simp only [handleNavigate]
    set y : Int := min ((s.chunks.length : Int) - 1) ((s.currentChunkIndex : Int) + d)
      with hy
    have hyle : y ≤ (s.chunks.length : Int) - 1 := min_le_left _ _
    have hnext : (max 0 y).toNat < s.chunks.length := by
      have h2 : max 0 y ≤ (s.chunks.length : Int) - 1 := max_le (by omega) hyle
      have h3 : (0 : Int) ≤ max 0 y := le_max_left _ _
      omega
    have hlt : (max 0 y).toNat <
        (commitIndex (handleStopM s) (max 0 y).toNat).chunks.length := by
      rw [commitIndex_chunks]; exact hnext
    rw [playChunk_pos _ _ _ hlt]
    refine ⟨?_, rfl, rfl, by simp⟩
    exact commitIndex_currentChunkIndex _ _
  · intro s d t hch hidx hstate hprog htimer
    have hstop : handleStopM s = s := by
      unfold handleStopM
      cases s
      simp only at hstate hprog htimer
      simp [hstate, hprog, htimer]
    have hplay0 : ∀ a : Bool, playChunk s 0 a = s := by
      intro a
      apply playChunk_neg
      simp [hch]
    have hcommit0 : commitIndex s 0 = s := by
      unfold commitIndex
      rw [if_pos hidx.symm]
    refine ⟨?_, ?_, ?_⟩
    · unfold handlePlayPause
      rw [hstate]
      simpa [hidx] using hplay0 false
    · simp only [handleNavigate, hstop, hch, hidx, List.length_nil, Nat.cast_zero]
      have hz : (max 0 (min ((0 : Int) - 1) ((0 : Int) + d))).toNat = 0 := by
        have hm : min ((0 : Int) - 1) ((0 : Int) + d) ≤ -1 :=
          le_trans (min_le_left _ _) (by omega)
        have hmax : max 0 (min ((0 : Int) - 1) ((0 : Int) + d)) = 0 :=
          max_eq_left (by omega)
        rw [hmax]; rfl
      rw [hz, hcommit0, hplay0]
    · unfold handleJump
      rw [if_neg]
      simp [hch]

theorem C5_witness :
    ((handleNavigate cexPlayingState 1).currentChunkIndex =
        (max 0 (min ((cexPlayingState.chunks.length : Int) - 1)
          ((cexPlayingState.currentChunkIndex : Int) + 1))).toNat
      ∧ (handleNavigate cexPlayingState 1).readerState = ReaderState.PLAYING
      ∧ (handleNavigate cexPlayingState 1).chunkProgress = 0
      ∧ (handleNavigate cexPlayingState 1).timerStep ≠ none)
    ∧ (handlePlayPause emptyIdleState = emptyIdleState
      ∧ handleNavigate emptyIdleState (-3) = emptyIdleState
      ∧ handleJump emptyIdleState 1 = emptyIdleState) :=
  ⟨C5_navigate_clamp_and_empty_noop.1 cexPlayingState 1 (by decide),
   C5_navigate_clamp_and_empty_noop.2 emptyIdleState (-3) 1 rfl rfl rfl rfl rfl⟩

/-- C6 counterexample: from a reachable state playing chunk 0 of 2 with an
empty save log, a playback-rate edit fires exactly one save (and sets the
`isSettingUpdate` flag); the auto-advance completion that follows changes
the current chunk index from 0 to 1 — a transition of the durable pair —
yet fires zero saves: the log still has length 1. -/
theorem C6_counterexample :
    (applyAVSettings cexPlayingState fasterSettings).saveLog.length = 1
    ∧ (applyAVSettings cexPlayingState fasterSettings).currentChunkIndex = 0
    ∧ (handleSpeechEnd (applyAVSettings cexPlayingState fasterSettings)).currentChunkIndex
        = 1
    ∧ (handleSpeechEnd (applyAVSettings cexPlayingState fasterSettings)).saveLog.length
        = 1 := by
  refine ⟨rfl, rfl, rfl, rfl⟩

/-- C6 amended: a settings edit touching rate/volume/voice fires exactly
one save and, when made while PLAYING, leaves the `isSettingUpdate` flag
set; an index change fires exactly one save when the flag is clear but
ZERO saves when the flag is set (it only clears the flag) — so the first
index change after a settings edit made while PLAYING, e.g. by
auto-advance, is not persisted. -/
theorem C6_amended_save_discipline :
    (∀ (s : ReaderModel) (ns : ReaderSettings),
      ¬(ns.playbackRate = s.settings.playbackRate ∧ ns.volume = s.settings.volume
          ∧ ns.webSpeechVoiceURI = s.settings.webSpeechVoiceURI) →
      (applyAVSettings s ns).saveLog = s.saveLog ++ [(s.currentChunkIndex, ns)]
      ∧ (s.readerState = ReaderState.PLAYING →
          (applyAVSettings s ns).isSettingUpdate = true)
      ∧ (s.readerState ≠ ReaderState.PLAYING →
          (applyAVSettings s ns).isSettingUpdate = s.isSettingUpdate))
    ∧ (∀ (s : ReaderModel) (i : Nat), i ≠ s.currentChunkIndex →
        (commitIndex s i).saveLog =
          (if s.isSettingUpdate then s.saveLog else s.saveLog ++ [(i, s.settings)])
        ∧ (commitIndex s i).isSettingUpdate = false) := by
  constructor
  · intro s ns h
    unfold applyAVSettings
    rw [if_neg h]
    split
    · next hp =>
      refine ⟨?_, fun _ => ?_, fun hnp => absurd hp hnp⟩
      · simp [playChunk_saveLog, playChunk_currentChunkIndex]
      · simp [playChunk_isSettingUpdate]
    · next hp =>
      exact ⟨by simp, fun hP => absurd hP hp, fun _ => rfl⟩
  · intro s i h
    unfold commitIndex
    rw [if_neg h]
    exact ⟨rfl, rfl⟩

theorem C6_amended_witness :
    ((applyAVSettings cexPlayingState fasterSettings).saveLog =
        cexPlayingState.saveLog ++
          [(cexPlayingState.currentChunkIndex, fasterSettings)])
    ∧ (commitIndex cexPlayingState 1).saveLog =
        (if cexPlayingState.isSettingUpdate then cexPlayingState.saveLog
         else cexPlayingState.saveLog ++ [(1, cexPlayingState.settings)]) :=
  ⟨(C6_amended_save_discipline.1 cexPlayingState fasterSettings (by decide)).1,
   (C6_amended_save_discipline.2 cexPlayingState 1 (by decide)).1⟩

/-- C7: starting a chunk arms the 100 ms simulation with
`stepPercent = (100 · 100) / estimatedDurationMs` where
`estimatedDurationMs = textLength · 70 / playbackRate`; below 95 a tick
advances the progress by the step, capped at `min 95 (p + step)`; after any
number of ticks the simulated progress stays ≤ 95, hence it never reports
100 before the completion callback; and the completion callback sets the
progress to exactly 100. -/
theorem C7_progress_simulation :
    ∀ (s : ReaderModel) (idx : Nat) (h : idx < s.chunks.length),
      (playChunk s idx false).timerStep =
        some (100 * 100 /
          estimatedDurationMs (s.chunks.get ⟨idx, h⟩).text.length
            s.settings.playbackRate)
      ∧ (∀ st p : ℚ, p < 95 → tickFn st p = min 95 (p + st))
      ∧ (∀ n : Nat, (handleTick^[n] (playChunk s idx false)).chunkProgress ≤ 95)
      ∧ (∀ t : ReaderModel, (onEndMark t).chunkProgress = 100) := by
  intro s idx h
  refine ⟨?_, ?_, ?_, fun t => rfl⟩
  · rw [playChunk_pos _ _ _ h]
    show some (simStepOf _ _) = _
    unfold simStepOf updateIntervalMs
    rw [div_mul_eq_mul_div]
  · intro st p hp
    unfold tickFn
    rw [if_neg (not_le.mpr hp)]
  · intro n
    have step : ∀ t : ReaderModel, t.chunkProgress ≤ 95 →
        (handleTick t).chunkProgress ≤ 95 := by
      intro t ht
      cases htm : t.timerStep with
      | none => simpa [handleTick, htm] using ht
      | some st =>
        simp only [handleTick, htm]
        show tickFn st t.chunkProgress ≤ 95
        unfold tickFn
        split
        · exact ht
        · exact min_le_left _ _
    have h0 : (playChunk s idx false).chunkProgress ≤ 95 := by
      rw [playChunk_pos _ _ _ h]
      norm_num
    induction n with
    | zero => simpa using h0
    | succ n ih =>
      rw [Function.iterate_succ_apply']
      exact step _ ih

theorem C7_witness :
    (playChunk cexPlayingState 0 false).timerStep =
      some (100 * 100 /
        estimatedDurationMs (cexPlayingState.chunks.get ⟨0, by decide⟩).text.length
          cexPlayingState.settings.playbackRate) :=
  (C7_progress_simulation cexPlayingState 0 (by decide)).1

/-- C8: `changeGroupSize(delta)` clamps the new size into `[1, 200]`; when
the clamped size equals the old size the call is a no-op; otherwise the
settings take the new size and the current index becomes
`floor(currentIndex · oldSize / newSize)`. -/
theorem C8_changeGroupSize :
    ∀ (s : ReaderModel) (delta : Int),
      (1 ≤ (max 1 (min 200 ((s.settings.sentencesPerChunk : Int) + delta))).toNat
        ∧ (max 1 (min 200 ((s.settings.sentencesPerChunk : Int) + delta))).toNat ≤ 200)
      ∧ ((max 1 (min 200 ((s.settings.sentencesPerChunk : Int) + delta))).toNat
            = s.settings.sentencesPerChunk → changeChunkSize s delta = s)
      ∧ ((max 1 (min 200 ((s.settings.sentencesPerChunk : Int) + delta))).toNat
            ≠ s.settings.sentencesPerChunk →
          (changeChunkSize s delta).settings.sentencesPerChunk =
            (max 1 (min 200 ((s.settings.sentencesPerChunk : Int) + delta))).toNat
          ∧ (changeChunkSize s delta).currentChunkIndex =
              s.currentChunkIndex * s.settings.sentencesPerChunk /
                (max 1 (min 200 ((s.settings.sentencesPerChunk : Int) + delta))).toNat) := by
  intro s delta
  have h1 : (1 : Int) ≤ max 1 (min 200 ((s.settings.sentencesPerChunk : Int) + delta)) :=
    le_max_left _ _
  have h2 : max 1 (min 200 ((s.settings.sentencesPerChunk : Int) + delta)) ≤ 200 :=
    max_le (by omega) (min_le_left _ _)
  refine ⟨⟨by omega, by omega⟩, ?_, ?_⟩
  · intro he
    unfold changeChunkSize
    rw [if_pos he]
  · intro hne
    unfold changeChunkSize
    rw [if_neg hne]
    constructor
    · rw [commitIndex_settings]
    · rw [commitIndex_currentChunkIndex]

theorem C8_witness :
    (changeChunkSize cexPlayingState 1).settings.sentencesPerChunk =
      (max 1 (min 200 ((cexPlayingState.settings.sentencesPerChunk : Int) + 1))).toNat :=
  ((C8_changeGroupSize cexPlayingState 1).2.2 (by decide)).1

/-- C9 counterexample: in the paginated model the page-follows-index effect
of src/unnamed/part_003 lines 114–116 moves the displayed page from 0 to 1
when auto-advance crosses the boundary from chunk 49 to chunk 50, with no
manual prevPage/nextPage command involved. -/
theorem C9_counterexample :
    pageBoundaryState.currentPage = 0
    ∧ (handleSpeechEnd pageBoundaryState).currentChunkIndex = 50
    ∧ (handleSpeechEnd pageBoundaryState).currentPage = 1 := by
  refine ⟨rfl, rfl, rfl⟩

/-- C9 amended: the displayed page auto-follows playback — every change of
the current chunk index sets `currentPage = floor(index / 50)` — and
prevPage/nextPage additionally set the page manually, accepted exactly
inside `[0, totalPages)`. -/
theorem C9_amended_page_follows_index :
    (∀ (s : ReaderModel) (i : Nat), i ≠ s.currentChunkIndex →
      (commitIndex s i).currentPage = i / ITEMS_PER_PAGE)
    ∧ (∀ (s : ReaderModel) (p : Int), 0 ≤ p ∧ p < (totalPages s : Int) →
      (handlePageChange s p).currentPage = p.toNat)
    ∧ (∀ (s : ReaderModel) (p : Int), ¬(0 ≤ p ∧ p < (totalPages s : Int)) →
      handlePageChange s p = s) := by
  refine ⟨?_, ?_, ?_⟩
  · intro s i h
    unfold commitIndex
    rw [if_neg h]
  · intro s p hp
    unfold handlePageChange
    rw [if_pos hp]
  · intro s p hp
    unfold handlePageChange
    rw [if_neg hp]

theorem C9_amended_witness :
    (commitIndex pageBoundaryState 50).currentPage = 50 / ITEMS_PER_PAGE :=
  C9_amended_page_follows_index.1 pageBoundaryState 50 (by decide)

lemma flightStep_progress (s : ReaderModel)
    (h : s.chunkProgress ≤ 95 ∨ s.chunkProgress = 100) (e : FlightEvent) :
    (flightStep s e).chunkProgress ≤ 95 ∨ (flightStep s e).chunkProgress = 100 := by
  cases e with
  | tick =>
    show (handleTick s).chunkProgress ≤ 95 ∨ (handleTick s).chunkProgress = 100
    cases htm : s.timerStep with
    | none => simpa [handleTick, htm] using h
    | some st =>
      simp only [handleTick, htm]
      show tickFn st s.chunkProgress ≤ 95 ∨ tickFn st s.chunkProgress = 100
      unfold tickFn
      split
      · exact h
      · exact Or.inl (min_le_left _ _)
  | outcome o =>
    cases o with
    | ended =>
      show (handleSpeechEnd s).chunkProgress ≤ 95
        ∨ (handleSpeechEnd s).chunkProgress = 100
      unfold handleSpeechEnd
      split
      · by_cases hv : s.currentChunkIndex + 1 <
            (commitIndex (onEndMark s) (s.currentChunkIndex + 1)).chunks.length
        · rw [playChunk_pos _ _ _ hv]
          exact Or.inl (by norm_num)
        · rw [playChunk_neg _ _ _ hv]
          right
          rw [commitIndex_chunkProgress]
          rfl
      · exact Or.inr rfl
    | error k =>
      show (if k = "canceled" ∨ k = "interrupted" then s
            else handleSpeechError s k).chunkProgress ≤ 95
        ∨ (if k = "canceled" ∨ k = "interrupted" then s
            else handleSpeechError s k).chunkProgress = 100
      split
      · exact h
      · exact h

/-- C10: the real-progress callback passed as the eighth argument of the
`speakWebSpeech` call is dropped (the function declares seven parameters
ending at `shouldCancel`), so the call's behaviour is the same for any two
eighth arguments; consequently, over every sequence of ticks and backend
outcomes after starting a chunk, the displayed progress is produced solely
by the simulation (staying ≤ 95) and the completion callback (exactly
100) — no authoritative backend progress value ever appears. -/
theorem C10_progress_sources :
    (∀ (α : Type) (text voiceURI : String) (rate : ℚ) (volume : Nat)
        (onEnd : α → α) (onError : String → α → α) (shouldCancel : Bool)
        (p₁ p₂ : ℚ → α → α),
      speakCallWithProgressArg text voiceURI rate volume onEnd onError
          shouldCancel p₁ =
        speakCallWithProgressArg text voiceURI rate volume onEnd onError
          shouldCancel p₂)
    ∧ (∀ (s : ReaderModel) (idx : Nat) (evs : List FlightEvent),
        idx < s.chunks.length →
        (runFlight (playChunk s idx false) evs).chunkProgress ≤ 95
        ∨ (runFlight (playChunk s idx false) evs).chunkProgress = 100) := by
  constructor
  · intro α text voiceURI rate volume onEnd onError shouldCancel p₁ p₂
    rfl
  · intro s idx evs h
    have main : ∀ (l : List FlightEvent) (t : ReaderModel),
        t.chunkProgress ≤ 95 ∨ t.chunkProgress = 100 →
        (runFlight t l).chunkProgress ≤ 95 ∨ (runFlight t l).chunkProgress = 100 := by
      intro l
      induction l with
      | nil => intro t ht; exact ht
      | cons e rest ih =>
        intro t ht
        exact ih (flightStep t e) (flightStep_progress t ht e)
    refine main evs _ (Or.inl ?_)
    rw [playChunk_pos _ _ _ h]
    norm_num

theorem C10_witness :
    (runFlight (playChunk cexPlayingState 0 false)
        [FlightEvent.tick, FlightEvent.outcome BackendOutcome.ended]).chunkProgress ≤ 95
    ∨ (runFlight (playChunk cexPlayingState 0 false)
        [FlightEvent.tick, FlightEvent.outcome BackendOutcome.ended]).chunkProgress
        = 100 :=
  C10_progress_sources.2 cexPlayingState 0 _ (by decide)

end TTS
